import Mathlib

/-!
Verification of the eleveldb NIF dispatch layer (`src/c_src/eleveldb.cc`).

The development shallowly embeds the dispatch functions of `eleveldb.cc`
over a model of Erlang terms.  NIF results that raise `badarg`
(`enif_make_badarg`) are modelled as the atom `badarg`; messages sent via
`send_reply` are collected in an explicit list; submissions to the worker
thread pool are recorded as work-item values, with a boolean environment
parameter saying whether `thread_pool.submit` succeeds.  Pieces of the
repository that live in headers not present under `src/` (the `fold`
helper of `detail.hpp`, `InitiateCloseRequest` / object retrieval of the
reference-counting layer, and the worker-side execution of a Move work
item) are modelled from the specification and marked as such in their
doc comments.
-/

namespace Eleveldb

/-- Model of an Erlang term as seen through the NIF API: atoms, binaries
(byte lists), integers, opaque references, tuples and lists. -/
inductive Term where
  | atom : String → Term
  | binary : List Nat → Term
  | int : Int → Term
  | ref : Nat → Term
  | tuple : List Term → Term
  | list : List Term → Term
deriving Repr

/-- Atom `ok` (`on_load`, `eleveldb.cc:968`). -/
def ATOM_OK : Term := Term.atom "ok"

/-- Atom `error` (`eleveldb.cc:969`). -/
def ATOM_ERROR : Term := Term.atom "error"

/-- Atom `einval` (`eleveldb.cc:970`). -/
def ATOM_EINVAL : Term := Term.atom "einval"

/-- The result of `enif_make_badarg`, modelled as the atom `badarg`. -/
def ATOM_BADARG : Term := Term.atom "badarg"

/-- Atom `true` (`eleveldb.cc:972`). -/
def ATOM_TRUE : Term := Term.atom "true"

/-- Atom `false` (`eleveldb.cc:973`). -/
def ATOM_FALSE : Term := Term.atom "false"

/-- Atom `invalid_iterator` (`eleveldb.cc:1000`). -/
def ATOM_INVALID_ITERATOR : Term := Term.atom "invalid_iterator"

/-- Atom `bad_write_action` (`eleveldb.cc:992`). -/
def ATOM_BAD_WRITE_ACTION : Term := Term.atom "bad_write_action"

/-- Atom `clear` (`eleveldb.cc:988`). -/
def ATOM_CLEAR : Term := Term.atom "clear"

/-- Atom `prefetch` (`eleveldb.cc:999`). -/
def ATOM_PREFETCH : Term := Term.atom "prefetch"

/-- `error_einval` (`eleveldb.cc:139`): the tuple `{error, einval}`. -/
def error_einval : Term := Term.tuple [ATOM_ERROR, ATOM_EINVAL]

/-- `enif_is_list`. -/
def isList : Term → Bool
  | Term.list _ => true
  | _ => false

/-- `enif_is_atom`. -/
def isAtom : Term → Bool
  | Term.atom _ => true
  | _ => false

/-- The elements of a list term. -/
def listElems : Term → List Term
  | Term.list ts => ts
  | _ => []

/-- `enif_get_ulong`: succeeds exactly on non-negative integer terms. -/
def getUlong : Term → Option Nat
  | Term.int n => if 0 ≤ n then some n.toNat else none
  | _ => none

/-- `enif_get_int`. -/
def getInt : Term → Option Int
  | Term.int n => some n
  | _ => none

/-- `MoveTask::action_t` (`eleveldb.cc:551`): the iterator-move actions. -/
inductive MoveAction where
  | first
  | last
  | next
  | prev
  | prefetch
  | seek
deriving DecidableEq, Repr

/-- The action decoding of `async_iterator_move` (`eleveldb.cc:551-561`):
the action starts as `SEEK` and is replaced when the argument is one of
the five recognised atoms; any other argument (atom or not) leaves it
`SEEK`. -/
def actionOfTerm : Term → MoveAction
  | Term.atom "first" => MoveAction.first
  | Term.atom "last" => MoveAction.last
  | Term.atom "next" => MoveAction.next
  | Term.atom "prev" => MoveAction.prev
  | Term.atom "prefetch" => MoveAction.prefetch
  | _ => MoveAction.seek

/-- The fields of the `LevelIteratorWrapper` reached through
`itr_ptr->m_Iter`: the atomic handoff word, the prefetch-started flag,
the keys-only flag, and the underlying leveldb iterator position
(validity, current key, current value). -/
structure LDbIter where
  m_HandoffAtomic : Nat
  m_PrefetchStarted : Bool
  m_KeysOnly : Bool
  valid : Bool
  curKey : List Nat
  curValue : List Nat
deriving Repr

/-- The `ItrObject` state used by `async_iterator_move`: the wrapped
iterator, the snapshot's caller reference `m_Snapshot->itr_ref`
(a reference term, modelled by its id), and whether the `reuse_move`
pending-move slot is occupied. -/
structure ItrObject where
  m_Iter : LDbIter
  itr_ref : Nat
  reuse_move : Bool
deriving Repr

/-- A batch operation recorded into a `leveldb::WriteBatch`. -/
inductive BatchOp where
  | put : List Nat → List Nat → BatchOp
  | del : List Nat → BatchOp
deriving DecidableEq, Repr

/-- The work items constructed by the dispatch functions
(`OpenTask`, `WriteTask`, `GetTask`, `IterTask`, `MoveTask`). -/
inductive WorkItem where
  | openTask : Term → List Nat → WorkItem
  | writeTask : Term → List BatchOp → WorkItem
  | getTask : Term → List Nat → WorkItem
  | iterTask : Term → Bool → WorkItem
  | moveTask : Term → MoveAction → List Nat → WorkItem
deriving Repr

/-- Result of the three-way branch of `async_iterator_move`
(`eleveldb.cc:570-633`), before the submission tail. -/
structure MoveStep where
  ret : Term
  itr : ItrObject
  releases : Nat
  submit_new : Bool

/-- Outcome of a call to `async_iterator_move`: the term returned to the
caller, the resulting handle state, the number of `ReleaseReuseMove`
invocations, and the move work item submitted to the pool, if any. -/
structure MoveOutcome where
  ret : Term
  itr : ItrObject
  releases : Nat
  submitted : Option WorkItem
deriving Repr

/-- The synchronous reply built in case 3 of `async_iterator_move`
(`eleveldb.cc:613-623`): `{error, invalid_iterator}` when the iterator is
not valid, `{ok, key}` when keys-only, `{ok, key, value}` otherwise. -/
def caseThreeReply (it : LDbIter) : Term :=
  if !it.valid then Term.tuple [ATOM_ERROR, ATOM_INVALID_ITERATOR]
  else if it.m_KeysOnly then Term.tuple [ATOM_OK, Term.binary it.curKey]
  else Term.tuple [ATOM_OK, Term.binary it.curKey, Term.binary it.curValue]

/-- `async_iterator_move` (`eleveldb.cc:526-676`) on a resolvable
iterator handle.  `action_or_target` is `argv[2]`; `submitOk` says
whether `thread_pool.submit` accepts the new work item.  The three-way
branch (not-prefetch / compare-and-swap 0→1 succeeds / handoff already
set) is followed by the shared submission tail that builds the
`MoveTask`, stores it in `reuse_move` with an extra reference, inspects
the seek target, and submits. -/
def async_iterator_move (itr : ItrObject) (action_or_target : Term)
    (submitOk : Bool) : MoveOutcome :=
  let action := actionOfTerm action_or_target
  let caller_ref := Term.ref itr.itr_ref
  let step : MoveStep :=
    if action ≠ MoveAction.prefetch then
      -- case 1 (`eleveldb.cc:571-582`): release the previous move,
      -- reply via message, force the handoff word to 1
      { ret := caller_ref
        itr := { itr with
                  m_Iter := { itr.m_Iter with m_HandoffAtomic := 1 }
                  reuse_move := false }
        releases := 1
        submit_new := true }
    else if itr.m_Iter.m_HandoffAtomic = 0 then
      -- case 2 (`eleveldb.cc:587-608`): compare_and_swap(0,1) succeeded
      if !itr.m_Iter.m_PrefetchStarted then
        { ret := caller_ref
          itr := { itr with
                    m_Iter := { itr.m_Iter with
                                 m_HandoffAtomic := 1
                                 m_PrefetchStarted := true }
                    reuse_move := false }
          releases := 1
          submit_new := true }
      else
        { ret := caller_ref
          itr := { itr with
                    m_Iter := { itr.m_Iter with m_HandoffAtomic := 1 } }
          releases := 0
          submit_new := false }
    else
      -- case 3 (`eleveldb.cc:611-633`): a prefetched position is
      -- buffered; reply synchronously, reset the handoff word,
      -- release the previous move
      { ret := caseThreeReply itr.m_Iter
        itr := { itr with
                  m_Iter := { itr.m_Iter with m_HandoffAtomic := 0 }
                  reuse_move := false }
        releases := 1
        submit_new := true }
  if step.submit_new then
    -- submission tail (`eleveldb.cc:637-672`): build the MoveTask,
    -- RefInc and park it in reuse_move, then submit
    let itr2 := { step.itr with reuse_move := true }
    if action = MoveAction.seek then
      match action_or_target with
      | Term.binary key =>
        if submitOk then
          { ret := step.ret
            itr := itr2
            releases := step.releases
            submitted := some (WorkItem.moveTask caller_ref action key) }
        else
          { ret := Term.tuple [ATOM_ERROR, caller_ref]
            itr := { itr2 with reuse_move := false }
            releases := step.releases + 1
            submitted := none }
      | _ =>
        -- `enif_inspect_binary` failed on the seek target
        { ret := Term.tuple [ATOM_EINVAL, caller_ref]
          itr := { itr2 with reuse_move := false }
          releases := step.releases + 1
          submitted := none }
    else
      if submitOk then
        { ret := step.ret
          itr := itr2
          releases := step.releases
          submitted := some (WorkItem.moveTask caller_ref action []) }
      else
        { ret := Term.tuple [ATOM_ERROR, caller_ref]
          itr := { itr2 with reuse_move := false }
          releases := step.releases + 1
          submitted := none }
  else
    { ret := step.ret
      itr := step.itr
      releases := step.releases
      submitted := none }

/-- The state of an open leveldb connection, at the interface boundary of
the external storage engine (spec §6): its entries and the property table
answered by `GetProperty`. -/
structure DbConn where
  entries : List (List Nat × List Nat)
  props : List (List Nat × List Nat)
deriving Repr

/-- `DbObject`: a database handle, owning an engine connection `m_Db`
or none if the open failed. -/
structure DbObject where
  m_Db : Option DbConn
deriving Repr

/-- Outcome of a dispatch-layer NIF call: the term returned, the
messages sent through `send_reply` (caller reference paired with the
reply), the work items submitted to the pool, whether the external
engine connection was called directly, the number of work items deleted
without being executed, and the temporary engine iterators created and
deleted during the call. -/
structure NifOutcome where
  ret : Term
  sent : List (Term × Term) := []
  submitted : List WorkItem := []
  engineCalled : Bool := false
  disposed : Nat := 0
  itersCreated : Nat := 0
  itersDeleted : Nat := 0
deriving Repr

/-- `write_batch_item` (`eleveldb.cc:285-321`): translate one batch
entry into an operation on the `WriteBatch`, returning `ok` and the new
batch, or the offending entry itself with the batch unchanged.
`batch.Clear()` empties the accumulated operations.  Caveat: for a bare
atom other than `clear` the source enters the block via `enif_is_atom`
and then dereferences the uninitialized tuple pointer `action`
(`eleveldb.cc:289-300`) — undefined behavior, so the program guarantees
nothing there; the catch-all arm below adopts the most claim-favorable
well-defined resolution (fall through to `return item`), and even under
it the reporting contract fails on the atom `ok`
(see `atom_ok_entry_swallowed`). -/
def write_batch_item (item : Term) (batch : List BatchOp) :
    Term × List BatchOp :=
  match item with
  | Term.atom "clear" => (ATOM_OK, [])
  | Term.tuple [Term.atom "put", Term.binary key, Term.binary value] =>
      (ATOM_OK, batch ++ [BatchOp.put key value])
  | Term.tuple [Term.atom "delete", Term.binary key] =>
      (ATOM_OK, batch ++ [BatchOp.del key])
  | _ => (item, batch)

/-- Modelled from the spec: the `fold` helper of `detail.hpp` (not under
`src/`) applies the item function to each element of the list, stopping
at and returning the first result that is not `ok` — "malformed batch
entry → reports the offending entry". -/
def foldBatch : List Term → List BatchOp → Term × List BatchOp
  | [], batch => (ATOM_OK, batch)
  | item :: rest, batch =>
      match write_batch_item item batch with
      | (Term.atom "ok", batch2) => foldBatch rest batch2
      | other => other

/-- `async_write` (`eleveldb.cc:376-431`): resolve the handle, check the
argument shapes, reject a null connection with `{error, einval}`, fold
the batch (reporting `{error, CallerRef, {bad_write_action, Entry}}` on
the first malformed entry), then build and submit a `WriteTask`. -/
def async_write (caller_ref : Term) (db_handle : Option DbObject)
    (action_ref opts_ref : Term) (submitOk : Bool) : NifOutcome :=
  match db_handle, action_ref, opts_ref with
  | some dbobj, Term.list actions, Term.list _ =>
    (match dbobj.m_Db with
     | none => { ret := ATOM_OK, sent := [(caller_ref, error_einval)] }
     | some _ =>
       match foldBatch actions [] with
       | (Term.atom "ok", batch) =>
         if submitOk then
           { ret := ATOM_OK
             submitted := [WorkItem.writeTask caller_ref batch] }
         else
           { ret := ATOM_OK
             sent := [(caller_ref, Term.tuple [ATOM_ERROR, caller_ref])]
             disposed := 1 }
       | (bad, _) =>
         { ret := ATOM_OK
           sent := [(caller_ref,
                     Term.tuple [ATOM_ERROR, caller_ref,
                                 Term.tuple [ATOM_BAD_WRITE_ACTION, bad]])] })
  | _, _, _ => { ret := ATOM_BADARG }

/-- `async_get` (`eleveldb.cc:434-476`): resolve the handle, check that
the options are a list and the key a binary, reject a null connection
with `{error, einval}`, then build and submit a `GetTask`. -/
def async_get (caller_ref : Term) (db_handle : Option DbObject)
    (key_ref opts_ref : Term) (submitOk : Bool) : NifOutcome :=
  match db_handle, key_ref, opts_ref with
  | some dbobj, Term.binary key, Term.list _ =>
    (match dbobj.m_Db with
     | none => { ret := ATOM_OK, sent := [(caller_ref, error_einval)] }
     | some _ =>
       if submitOk then
         { ret := ATOM_OK, submitted := [WorkItem.getTask caller_ref key] }
       else
         { ret := ATOM_OK
           sent := [(caller_ref, Term.tuple [ATOM_ERROR, caller_ref])]
           disposed := 1 })
  | _, _, _ => { ret := ATOM_BADARG }

/-- `async_iterator` (`eleveldb.cc:479-523`): the keys-only flag is set
exactly when a fourth argument equal to the atom `keys_only` is present;
resolve the handle, check the option list, reject a null connection with
`{error, einval}`, then build and submit an `IterTask`. -/
def async_iterator (caller_ref : Term) (db_handle : Option DbObject)
    (options_ref : Term) (argv3 : Option Term) (submitOk : Bool) :
    NifOutcome :=
  let keys_only : Bool :=
    match argv3 with
    | some (Term.atom "keys_only") => true
    | _ => false
  match db_handle, options_ref with
  | some dbobj, Term.list _ =>
    (match dbobj.m_Db with
     | none => { ret := ATOM_OK, sent := [(caller_ref, error_einval)] }
     | some _ =>
       if submitOk then
         { ret := ATOM_OK
           submitted := [WorkItem.iterTask caller_ref keys_only] }
       else
         { ret := ATOM_OK
           sent := [(caller_ref, Term.tuple [ATOM_ERROR, caller_ref])]
           disposed := 1 })
  | _, _ => { ret := ATOM_BADARG }

/-- `async_open` (`eleveldb.cc:340-373`): `db_name` is the result of
`enif_get_string` on `argv[1]`; check the option list, then build and
submit an `OpenTask`. -/
def async_open (caller_ref : Term) (db_name : Option (List Nat))
    (opts_ref : Term) (submitOk : Bool) : NifOutcome :=
  match db_name, opts_ref with
  | some nm, Term.list _ =>
    if submitOk then
      { ret := ATOM_OK, submitted := [WorkItem.openTask caller_ref nm] }
    else
      { ret := ATOM_OK
        sent := [(caller_ref, Term.tuple [ATOM_ERROR, caller_ref])]
        disposed := 1 }
  | _, _ => { ret := ATOM_BADARG }

/-- `eleveldb_status` (`eleveldb.cc:752-790`): with a resolvable handle
and a binary property name, a null connection yields `{error, einval}`;
otherwise `GetProperty` answers `{ok, Value}` or the bare atom
`error`. -/
def eleveldb_status (db_handle : Option DbObject) (name_ref : Term) :
    NifOutcome :=
  match db_handle, name_ref with
  | some dbobj, Term.binary name =>
    (match dbobj.m_Db with
     | none => { ret := error_einval }
     | some conn =>
       match conn.props.lookup name with
       | some value =>
         { ret := Term.tuple [ATOM_OK, Term.binary value]
           engineCalled := true }
       | none => { ret := ATOM_ERROR, engineCalled := true })
  | _, _ => { ret := ATOM_BADARG }

/-- A native leveldb iterator at the engine boundary (spec §6): the
snapshot's entries in key order and the current position (`none` is
pre-begin / not positioned). -/
structure EngineIter where
  entries : List (List Nat × List Nat)
  pos : Option Nat
deriving Repr

/-- `Valid()`: the position is inside the entry list. -/
def validE (it : EngineIter) : Bool :=
  match it.pos with
  | some i => i < it.entries.length
  | none => false

/-- Bytewise comparison of keys: `byteLe a b` iff `a ≤ b` in the
engine's lexicographic byte order. -/
def byteLe : List Nat → List Nat → Bool
  | [], _ => true
  | _ :: _, [] => false
  | a :: as, b :: bs => if a < b then true else if b < a then false else byteLe as bs

/-- The key and value at the current position, when valid. -/
def engineKV (it : EngineIter) : Option (List Nat × List Nat) :=
  match it.pos with
  | some i => it.entries.get? i
  | none => none

/-- The engine iterator operations used by move execution (spec §6):
`SeekToFirst`, `SeekToLast`, `Seek` reposition unconditionally; `Next`
and `Prev` step only from a valid position (the guarded stepping of the
worker-side move code). -/
def applyMove (it : EngineIter) (a : MoveAction) (target : List Nat) :
    EngineIter :=
  match a with
  | MoveAction.first => { it with pos := some 0 }
  | MoveAction.last =>
      { it with pos :=
          if it.entries.length = 0 then none
          else some (it.entries.length - 1) }
  | MoveAction.next =>
      if validE it then { it with pos := it.pos.map (· + 1) } else it
  | MoveAction.prev =>
      if validE it then
        match it.pos with
        | some 0 => { it with pos := none }
        | some (i + 1) => { it with pos := some i }
        | none => it
      else it
  | MoveAction.prefetch =>
      if validE it then { it with pos := it.pos.map (· + 1) } else it
  | MoveAction.seek =>
      { it with pos := it.entries.findIdx? (fun kv => byteLe target kv.1) }

/-- Modelled from the spec: the worker-side execution of a Move work
item (`MoveTask::operator()` of `workitems.cc`, not under `src/`) —
apply the action to the native iterator, then reply with the current
key (and value unless keys-only), or with the invalid-iterator marker
when the resulting position is not valid; it never retries. -/
def moveTaskExec (it : EngineIter) (keysOnly : Bool) (a : MoveAction)
    (target : List Nat) : EngineIter × Term :=
  let it2 := applyMove it a target
  match engineKV it2 with
  | none => (it2, Term.tuple [ATOM_ERROR, ATOM_INVALID_ITERATOR])
  | some (k, v) =>
      (it2,
       if keysOnly then Term.tuple [ATOM_OK, Term.binary k]
       else Term.tuple [ATOM_OK, Term.binary k, Term.binary v])

/-- `eleveldb_is_empty` (`eleveldb.cc:856-893`): badarg on an
unresolvable handle, `{error, einval}` on a null connection; otherwise
create a fresh engine iterator, seek it to the first entry, answer
`false` when that position is valid and `true` when it is not, and
delete the iterator before returning. -/
def eleveldb_is_empty (db_handle : Option DbObject) : NifOutcome :=
  match db_handle with
  | none => { ret := ATOM_BADARG }
  | some dbobj =>
    match dbobj.m_Db with
    | none => { ret := error_einval }
    | some conn =>
      let itr := applyMove { entries := conn.entries, pos := none }
                   MoveAction.first []
      { ret := if validE itr then ATOM_FALSE else ATOM_TRUE
        engineCalled := true
        itersCreated := 1
        itersDeleted := 1 }

/-- A reference-counted resource object (`ErlRefObject`): its reference
count and closing flag. -/
structure RefObject where
  refcount : Nat
  closing : Bool
deriving DecidableEq, Repr

/-- Modelled from the spec: resource-token resolution
(`RetrieveDbObject` / `RetrieveItrObject`, not under `src/`) — after
close has been initiated the token no longer resolves for new
requests. -/
def retrieveObject (o : RefObject) : Option RefObject :=
  if o.closing then none else some o

/-- Modelled from the spec: `InitiateCloseRequest` (not under `src/`) —
set the closing flag (idempotently) and release the caller's own
reference. -/
def initiateCloseRequest (o : RefObject) : RefObject :=
  { refcount := o.refcount - 1, closing := true }

/-- `eleveldb_close` (`eleveldb.cc:686-715`): resolve the handle and
initiate close, or answer badarg when the token does not resolve. -/
def eleveldb_close (o : RefObject) : Term × RefObject :=
  match retrieveObject o with
  | none => (ATOM_BADARG, o)
  | some p => (ATOM_OK, initiateCloseRequest p)

/-- `eleveldb_iterator_close` (`eleveldb.cc:718-749`): like
`eleveldb_close` but first releasing the pending move slot (the second
state component). -/
def eleveldb_iterator_close (s : RefObject × Bool) :
    Term × (RefObject × Bool) :=
  match retrieveObject s.1 with
  | none => (ATOM_BADARG, s)
  | some p => (ATOM_OK, (initiateCloseRequest p, false))

/-- The subset of `leveldb::Options` fields written by
`parse_open_option`. -/
structure Options where
  create_if_missing : Bool
  error_if_exists : Bool
  paranoid_checks : Bool
  verify_compactions : Bool
  max_open_files : Int
  write_buffer_size : Nat
  block_size : Nat
  block_restart_interval : Int
  block_cache : Option Nat
  compression : Bool
  filter_policy : Option Nat
deriving DecidableEq, Repr

/-- The comparison `option[1] == eleveldb::ATOM_TRUE`. -/
def isAtomTrue : Term → Bool
  | Term.atom "true" => true
  | _ => false

/-- `parse_open_option` (`eleveldb.cc:177-255`): recognise one
`{atom, value}` option tuple (the source reads the first two tuple slots
without checking the arity, so longer tuples are recognised by their
first two elements as well); the deprecated `block_size` atom is parsed
but ignored, while `sst_block_size` writes the `block_size` field. -/
def parse_open_option (item : Term) (opts : Options) : Options :=
  match item with
  | Term.tuple (Term.atom nm :: o1 :: _) =>
      if nm = "create_if_missing" then
        { opts with create_if_missing := isAtomTrue o1 }
      else if nm = "error_if_exists" then
        { opts with error_if_exists := isAtomTrue o1 }
      else if nm = "paranoid_checks" then
        { opts with paranoid_checks := isAtomTrue o1 }
      else if nm = "verify_compactions" then
        { opts with verify_compactions := isAtomTrue o1 }
      else if nm = "max_open_files" then
        match getInt o1 with
        | some n => { opts with max_open_files := n }
        | none => opts
      else if nm = "write_buffer_size" then
        match getUlong o1 with
        | some n => { opts with write_buffer_size := n }
        | none => opts
      else if nm = "block_size" then
        -- DEPRECATED: the old block_size atom was actually ignored
        opts
      else if nm = "sst_block_size" then
        match getUlong o1 with
        | some n => { opts with block_size := n }
        | none => opts
      else if nm = "block_restart_interval" then
        match getInt o1 with
        | some n => { opts with block_restart_interval := n }
        | none => opts
      else if nm = "cache_size" then
        match getUlong o1 with
        | some n => if n ≠ 0 then { opts with block_cache := some n } else opts
        | none => opts
      else if nm = "compression" then
        { opts with compression := isAtomTrue o1 }
      else if nm = "use_bloomfilter" then
        if isAtomTrue o1 then { opts with filter_policy := some 16 }
        else
          match getUlong o1 with
          | some n => { opts with filter_policy := some n }
          | none => opts
      else opts
  | _ => opts

/-- The fold of `parse_open_option` over an option list
(`eleveldb.cc:359`); `parse_open_option` always answers `ok`, so every
element is processed. -/
def foldOpenOptions (items : List Term) (opts : Options) : Options :=
  match items with
  | [] => opts
  | item :: rest => foldOpenOptions rest (parse_open_option item opts)

/-- Whether an option term is a `block_size` tuple as recognised by
`parse_open_option` (first slot the `block_size` atom, at least two
slots). -/
def isBlockSizeOpt : Term → Bool
  | Term.tuple (Term.atom "block_size" :: _ :: _) => true
  | _ => false

/-- A batch entry accepted by `write_batch_item`: the `clear` atom, a
`{put, Key, Value}` tuple with binary key and value, or a
`{delete, Key}` tuple with a binary key. -/
def goodEntry : Term → Bool
  | Term.atom "clear" => true
  | Term.tuple [Term.atom "put", Term.binary _, Term.binary _] => true
  | Term.tuple [Term.atom "delete", Term.binary _] => true
  | _ => false

/-!  ## Theorems about the claims -/

/-- `write_batch_item` answers `ok` exactly on the entries `goodEntry`
accepts, and returns the entry itself unchanged otherwise. -/
theorem write_batch_item_characterization (e : Term) (b : List BatchOp) :
    (goodEntry e = true → ∃ b2, write_batch_item e b = (ATOM_OK, b2)) ∧
    (goodEntry e = false → write_batch_item e b = (e, b)) := by
  constructor
  · intro h
    unfold write_batch_item
    unfold goodEntry at h
    split at h
    · exact ⟨[], rfl⟩
    · exact ⟨b ++ [BatchOp.put _ _], rfl⟩
    · exact ⟨b ++ [BatchOp.del _], rfl⟩
    · exact absurd h (by simp)
  · intro h
    unfold write_batch_item
    unfold goodEntry at h
    split at h
    · exact absurd h (by simp)
    · exact absurd h (by simp)
    · exact absurd h (by simp)
    · rfl

/-- Folding a batch whose entries are all well formed answers `ok`. -/
theorem foldBatch_all_good (actions : List Term) (b : List BatchOp)
    (h : ∀ e ∈ actions, goodEntry e = true) :
    ∃ b2, foldBatch actions b = (ATOM_OK, b2) := by
  induction actions generalizing b with
  | nil => exact ⟨b, rfl⟩
  | cons e rest ih =>
      obtain ⟨b2, hb2⟩ :=
        (write_batch_item_characterization e b).1 (h e (by simp))
      obtain ⟨b3, hb3⟩ := ih b2 (fun x hx => h x (List.mem_cons_of_mem _ hx))
      refine ⟨b3, ?_⟩
      show (match write_batch_item e b with
            | (Term.atom "ok", batch2) => foldBatch rest batch2
            | other => other) = (ATOM_OK, b3)
      rw [hb2]
      exact hb3

/-- Folding a batch stops at the first malformed entry and returns it,
provided the only atoms among the entries are `clear` (the source reads
an uninitialized tuple pointer on any other atom). -/
theorem foldBatch_first_bad (actions : List Term) (b : List BatchOp)
    (hatoms : ∀ e ∈ actions, isAtom e = true → e = ATOM_CLEAR)
    (bad : Term)
    (hfind : actions.find? (fun e => !goodEntry e) = some bad) :
    ∃ b2, foldBatch actions b = (bad, b2) ∧ goodEntry bad = false ∧
      isAtom bad = false := by
  induction actions generalizing b with
  | nil => simp [List.find?] at hfind
  | cons e rest ih =>
      by_cases hg : goodEntry e = true
      · have hfind2 : rest.find? (fun x => !goodEntry x) = some bad := by
          rwa [List.find?_cons_of_neg _ (by simp [hg])] at hfind
        obtain ⟨b2, hb2⟩ := (write_batch_item_characterization e b).1 hg
        obtain ⟨b3, hb3, hgb, hab⟩ :=
          ih b2 (fun x hx => hatoms x (List.mem_cons_of_mem _ hx)) hfind2
        refine ⟨b3, ?_, hgb, hab⟩
        show (match write_batch_item e b with
              | (Term.atom "ok", batch2) => foldBatch rest batch2
              | other => other) = (bad, b3)
        rw [hb2]
        exact hb3
      · have hg2 : goodEntry e = false := by
          cases hgb : goodEntry e with
          | false => rfl
          | true => exact absurd hgb hg
        have hbe : bad = e := by
          rw [List.find?_cons_of_pos _ (by simp [hg2])] at hfind
          exact (Option.some.injEq _ _ ▸ hfind.symm)
        subst hbe
        have hna : isAtom bad = false := by
          cases hia : isAtom bad with
          | false => rfl
          | true =>
              have := hatoms bad (by simp) hia
              rw [this] at hg2
              simp [goodEntry, ATOM_CLEAR] at hg2
        have hw : write_batch_item bad b = (bad, b) :=
          (write_batch_item_characterization bad b).2 hg2
        refine ⟨b, ?_, hg2, hna⟩
        show (match write_batch_item bad b with
              | (Term.atom "ok", batch2) => foldBatch rest batch2
              | other => other) = (bad, b)
        rw [hw]
        cases bad with
        | atom s => simp [isAtom] at hna
        | binary l => rfl
        | int n => rfl
        | ref n => rfl
        | tuple ts => rfl
        | list ts => rfl

/-- C1: a Prefetch request finding the handoff flag already 1 replies
synchronously from the buffered iterator position — the invalid-iterator
marker if the iterator is not valid, `{ok, key}` when keys-only,
`{ok, key, value}` otherwise — resets the handoff flag to 0, releases the
previous pending move, and submits a fresh background Move work item. -/
theorem prefetch_handoff_ready_sync_reply (itr : ItrObject)
    (hH : itr.m_Iter.m_HandoffAtomic = 1) :
    (async_iterator_move itr ATOM_PREFETCH true).ret = caseThreeReply itr.m_Iter ∧
    (itr.m_Iter.valid = false →
      (async_iterator_move itr ATOM_PREFETCH true).ret =
        Term.tuple [ATOM_ERROR, ATOM_INVALID_ITERATOR]) ∧
    (itr.m_Iter.valid = true → itr.m_Iter.m_KeysOnly = true →
      (async_iterator_move itr ATOM_PREFETCH true).ret =
        Term.tuple [ATOM_OK, Term.binary itr.m_Iter.curKey]) ∧
    (itr.m_Iter.valid = true → itr.m_Iter.m_KeysOnly = false →
      (async_iterator_move itr ATOM_PREFETCH true).ret =
        Term.tuple [ATOM_OK, Term.binary itr.m_Iter.curKey,
                    Term.binary itr.m_Iter.curValue]) ∧
    (async_iterator_move itr ATOM_PREFETCH true).itr.m_Iter.m_HandoffAtomic = 0 ∧
    (async_iterator_move itr ATOM_PREFETCH true).releases = 1 ∧
    (async_iterator_move itr ATOM_PREFETCH true).submitted =
      some (WorkItem.moveTask (Term.ref itr.itr_ref) MoveAction.prefetch []) ∧
    (async_iterator_move itr ATOM_PREFETCH true).itr.reuse_move = true := by
  obtain ⟨⟨h0, ps, ko, v, k, val⟩, r, rm⟩ := itr
  simp only at hH
  subst hH
  refine ⟨rfl, ?_, ?_, ?_, rfl, rfl, rfl, rfl⟩
  · intro hv; simp only at hv; subst hv; rfl
  · intro hv hk; simp only at hv hk; subst hv; subst hk; rfl
  · intro hv hk; simp only at hv hk; subst hv; subst hk; rfl

/-- Witness for C1 at a concrete iterator state. -/
theorem prefetch_handoff_ready_sync_reply_w :
    (({ m_Iter := { m_HandoffAtomic := 1, m_PrefetchStarted := true,
                    m_KeysOnly := false, valid := true,
                    curKey := [1, 2], curValue := [3] },
        itr_ref := 7, reuse_move := true } : ItrObject).m_Iter.m_HandoffAtomic
      = 1) ∧
    (async_iterator_move
        { m_Iter := { m_HandoffAtomic := 1, m_PrefetchStarted := true,
                      m_KeysOnly := false, valid := true,
                      curKey := [1, 2], curValue := [3] },
          itr_ref := 7, reuse_move := true } ATOM_PREFETCH true).ret =
      caseThreeReply
        { m_HandoffAtomic := 1, m_PrefetchStarted := true,
          m_KeysOnly := false, valid := true,
          curKey := [1, 2], curValue := [3] } :=
  ⟨rfl, (prefetch_handoff_ready_sync_reply _ rfl).1⟩

/-- C2: a single Prefetch request takes exactly one of two branches:
if the compare-and-swap from 0 to 1 succeeds, the call returns only the
caller reference (no synchronous result), submitting new work and marking
`m_PrefetchStarted` exactly when this is the first prefetch on the
handle; if the flag is already set, the call returns the buffered result
synchronously.  The two outcomes are mutually exclusive: the returned
term cannot be both the caller reference and the buffered reply. -/
theorem prefetch_request_dichotomy (itr : ItrObject) :
    (itr.m_Iter.m_HandoffAtomic = 0 →
      (async_iterator_move itr ATOM_PREFETCH true).ret = Term.ref itr.itr_ref ∧
      (itr.m_Iter.m_PrefetchStarted = false →
        (async_iterator_move itr ATOM_PREFETCH true).submitted =
          some (WorkItem.moveTask (Term.ref itr.itr_ref) MoveAction.prefetch []) ∧
        (async_iterator_move itr ATOM_PREFETCH true).itr.m_Iter.m_PrefetchStarted
          = true) ∧
      (itr.m_Iter.m_PrefetchStarted = true →
        (async_iterator_move itr ATOM_PREFETCH true).submitted = none)) ∧
    (itr.m_Iter.m_HandoffAtomic ≠ 0 →
      (async_iterator_move itr ATOM_PREFETCH true).ret =
        caseThreeReply itr.m_Iter) ∧
    ¬ ((async_iterator_move itr ATOM_PREFETCH true).ret = Term.ref itr.itr_ref ∧
       (async_iterator_move itr ATOM_PREFETCH true).ret =
         caseThreeReply itr.m_Iter) := by
  obtain ⟨⟨h0, ps, ko, v, k, val⟩, r, rm⟩ := itr
  refine ⟨?_, ?_, ?_⟩
  · intro hz
    simp only at hz
    subst hz
    cases ps with
    | false =>
        exact ⟨rfl, fun _ => ⟨rfl, rfl⟩, fun hps => Bool.noConfusion hps⟩
    | true =>
        exact ⟨rfl, fun hps => Bool.noConfusion hps, fun _ => rfl⟩
  · intro hnz
    simp only at hnz
    cases h0 with
    | zero => exact absurd rfl hnz
    | succ m => rfl
  · rintro ⟨h1, h2⟩
    have hrt : Term.ref r = caseThreeReply ⟨h0, ps, ko, v, k, val⟩ :=
      h1.symm.trans h2
    cases v <;> cases ko <;> simp [caseThreeReply] at hrt

/-- Witness for C2 (the theorem has no hypotheses besides the handle;
instantiated at a concrete state, every branch premise is
dischargeable). -/
theorem prefetch_request_dichotomy_w :
    (({ m_Iter := { m_HandoffAtomic := 0, m_PrefetchStarted := false,
                    m_KeysOnly := false, valid := true,
                    curKey := [9], curValue := [8] },
        itr_ref := 4, reuse_move := false } : ItrObject).m_Iter.m_HandoffAtomic
      = 0) ∧
    (async_iterator_move
        { m_Iter := { m_HandoffAtomic := 0, m_PrefetchStarted := false,
                      m_KeysOnly := false, valid := true,
                      curKey := [9], curValue := [8] },
          itr_ref := 4, reuse_move := false } ATOM_PREFETCH true).ret =
      Term.ref 4 :=
  ⟨rfl, ((prefetch_request_dichotomy _).1 rfl).1⟩

/-- C3: a move request whose action is First, Last, Next, Prev or
Seek(binary target) releases the previous pending move exactly once,
forces the handoff flag to 1 (reply must go out as a message), submits a
new Move work item retained in the pending-move slot, and returns the
caller reference with no synchronous result. -/
theorem explicit_move_releases_and_submits (itr : ItrObject) (t : Term)
    (ht : t = Term.atom "first" ∨ t = Term.atom "last" ∨
          t = Term.atom "next" ∨ t = Term.atom "prev" ∨
          (∃ bs, t = Term.binary bs)) :
    (async_iterator_move itr t true).releases = 1 ∧
    (async_iterator_move itr t true).itr.m_Iter.m_HandoffAtomic = 1 ∧
    (async_iterator_move itr t true).itr.reuse_move = true ∧
    (∃ tgt, (async_iterator_move itr t true).submitted =
      some (WorkItem.moveTask (Term.ref itr.itr_ref) (actionOfTerm t) tgt)) ∧
    (async_iterator_move itr t true).ret = Term.ref itr.itr_ref := by
  obtain ⟨⟨h0, ps, ko, v, k, val⟩, r, rm⟩ := itr
  rcases ht with h | h | h | h | ⟨bs, h⟩ <;> subst h
  · exact ⟨rfl, rfl, rfl, ⟨[], rfl⟩, rfl⟩
  · exact ⟨rfl, rfl, rfl, ⟨[], rfl⟩, rfl⟩
  · exact ⟨rfl, rfl, rfl, ⟨[], rfl⟩, rfl⟩
  · exact ⟨rfl, rfl, rfl, ⟨[], rfl⟩, rfl⟩
  · exact ⟨rfl, rfl, rfl, ⟨bs, rfl⟩, rfl⟩

/-- Witness for C3 at a concrete handle and the `next` action. -/
theorem explicit_move_releases_and_submits_w :
    ((Term.atom "next") = Term.atom "first" ∨
     (Term.atom "next") = Term.atom "last" ∨
     (Term.atom "next") = Term.atom "next" ∨
     (Term.atom "next") = Term.atom "prev" ∨
     (∃ bs, (Term.atom "next") = Term.binary bs)) ∧
    (async_iterator_move
        { m_Iter := { m_HandoffAtomic := 0, m_PrefetchStarted := false,
                      m_KeysOnly := true, valid := false,
                      curKey := [], curValue := [] },
          itr_ref := 2, reuse_move := true } (Term.atom "next") true).releases
      = 1 :=
  ⟨Or.inr (Or.inr (Or.inl rfl)),
   (explicit_move_releases_and_submits _ (Term.atom "next")
     (Or.inr (Or.inr (Or.inl rfl)))).1⟩

/-- C4: every storage operation through a handle whose engine connection
is null produces the `{error, einval}` reply (sent as a message by the
async operations, returned directly by status and is_empty), submitting
no work and never calling the external engine. -/
theorem null_connection_operations_einval
    (caller_ref : Term) (actions opts : List Term) (key pname : List Nat)
    (argv3 : Option Term) (s : Bool) :
    async_write caller_ref (some { m_Db := none }) (Term.list actions)
        (Term.list opts) s =
      { ret := ATOM_OK, sent := [(caller_ref, error_einval)] } ∧
    async_get caller_ref (some { m_Db := none }) (Term.binary key)
        (Term.list opts) s =
      { ret := ATOM_OK, sent := [(caller_ref, error_einval)] } ∧
    async_iterator caller_ref (some { m_Db := none }) (Term.list opts)
        argv3 s =
      { ret := ATOM_OK, sent := [(caller_ref, error_einval)] } ∧
    eleveldb_status (some { m_Db := none }) (Term.binary pname) =
      { ret := error_einval } ∧
    eleveldb_is_empty (some { m_Db := none }) = { ret := error_einval } :=
  ⟨rfl, rfl, rfl, rfl, rfl⟩

/-- C5: when the thread-pool submission fails, each dispatch function
disposes of the work item and produces exactly one error reply carrying
the original caller reference — a `{error, CallerRef}` message for open,
write, get and create-iterator, and a synchronous `{error, CallerRef}`
return for iterator-move (whose pending-move reference is released and
slot cleared). -/
theorem submit_failure_one_error_reply
    (caller_ref : Term) (nm key : List Nat) (batch : List BatchOp)
    (actions opts : List Term) (conn : DbConn) (argv3 : Option Term)
    (itr : ItrObject) (t : Term)
    (hb : foldBatch actions [] = (ATOM_OK, batch))
    (ht : t = Term.atom "first" ∨ t = Term.atom "last" ∨
          t = Term.atom "next" ∨ t = Term.atom "prev" ∨
          (∃ bs, t = Term.binary bs)) :
    async_open caller_ref (some nm) (Term.list opts) false =
      { ret := ATOM_OK,
        sent := [(caller_ref, Term.tuple [ATOM_ERROR, caller_ref])]
        disposed := 1 } ∧
    async_write caller_ref (some { m_Db := some conn }) (Term.list actions)
        (Term.list opts) false =
      { ret := ATOM_OK,
        sent := [(caller_ref, Term.tuple [ATOM_ERROR, caller_ref])]
        disposed := 1 } ∧
    async_get caller_ref (some { m_Db := some conn }) (Term.binary key)
        (Term.list opts) false =
      { ret := ATOM_OK,
        sent := [(caller_ref, Term.tuple [ATOM_ERROR, caller_ref])]
        disposed := 1 } ∧
    async_iterator caller_ref (some { m_Db := some conn }) (Term.list opts)
        argv3 false =
      { ret := ATOM_OK,
        sent := [(caller_ref, Term.tuple [ATOM_ERROR, caller_ref])]
        disposed := 1 } ∧
    (async_iterator_move itr t false).ret =
      Term.tuple [ATOM_ERROR, Term.ref itr.itr_ref] ∧
    (async_iterator_move itr t false).submitted = none ∧
    (async_iterator_move itr t false).itr.reuse_move = false ∧
    (async_iterator_move itr t false).releases = 2 := by
  refine ⟨rfl, ?_, rfl, ?_, ?_⟩
  · show (match foldBatch actions [] with
          | (Term.atom "ok", batch) => _
          | (bad, _) => _) = _
    rw [hb]
    rfl
  · cases argv3 with
    | none => rfl
    | some a =>
        cases a <;> rfl
  · obtain ⟨⟨h0, ps, ko, v, k, val⟩, r, rm⟩ := itr
    rcases ht with h | h | h | h | ⟨bs, h⟩ <;> subst h <;>
      exact ⟨rfl, rfl, rfl, rfl⟩

/-- Witness for C5 at concrete inputs. -/
theorem submit_failure_one_error_reply_w :
    foldBatch [Term.tuple [Term.atom "delete", Term.binary [1]]] [] =
      (ATOM_OK, [BatchOp.del [1]]) ∧
    ((Term.atom "first") = Term.atom "first" ∨
     (Term.atom "first") = Term.atom "last" ∨
     (Term.atom "first") = Term.atom "next" ∨
     (Term.atom "first") = Term.atom "prev" ∨
     (∃ bs, (Term.atom "first") = Term.binary bs)) ∧
    async_open (Term.ref 1) (some [97]) (Term.list []) false =
      { ret := ATOM_OK,
        sent := [(Term.ref 1, Term.tuple [ATOM_ERROR, Term.ref 1])]
        disposed := 1 } :=
  ⟨rfl, Or.inl rfl,
   (submit_failure_one_error_reply (Term.ref 1) [97] [1] [BatchOp.del [1]]
     [Term.tuple [Term.atom "delete", Term.binary [1]]] []
     { entries := [], props := [] } none
     { m_Iter := { m_HandoffAtomic := 0, m_PrefetchStarted := false,
                   m_KeysOnly := false, valid := false,
                   curKey := [], curValue := [] },
       itr_ref := 5, reuse_move := false }
     (Term.atom "first") rfl (Or.inl rfl)).1⟩

/-- Restricted positive result about the batch report protocol, on the
domain where the source's behavior is defined (no bare atoms besides
`clear` among the entries): a write whose batch contains a malformed
entry (neither `clear`, nor `{put, Key, Value}` with binaries, nor
`{delete, Key}` with a binary) reports
`{error, CallerRef, {bad_write_action, Entry}}` with the offending entry
itself and submits no work item, while a batch of only well-formed
entries is accepted and submitted.  Outside this domain the contract
fails: see `atom_ok_entry_swallowed`. -/
theorem malformed_batch_entry_reported
    (caller_ref : Term) (actions opts : List Term) (conn : DbConn)
    (hatoms : ∀ e ∈ actions, isAtom e = true → e = ATOM_CLEAR) :
    (∀ bad, actions.find? (fun e => !goodEntry e) = some bad →
      async_write caller_ref (some { m_Db := some conn })
          (Term.list actions) (Term.list opts) true =
        { ret := ATOM_OK,
          sent := [(caller_ref,
                    Term.tuple [ATOM_ERROR, caller_ref,
                                Term.tuple [ATOM_BAD_WRITE_ACTION, bad]])] }) ∧
    (actions.find? (fun e => !goodEntry e) = none →
      ∃ batch, async_write caller_ref (some { m_Db := some conn })
          (Term.list actions) (Term.list opts) true =
        { ret := ATOM_OK,
          submitted := [WorkItem.writeTask caller_ref batch] }) := by
  constructor
  · intro bad hfind
    obtain ⟨b2, hb2, _, hna⟩ := foldBatch_first_bad actions [] hatoms bad hfind
    show (match foldBatch actions [] with
          | (Term.atom "ok", batch) => _
          | (bd, _) => _) = _
    rw [hb2]
    cases bad with
    | atom s => simp [isAtom] at hna
    | binary l => rfl
    | int n => rfl
    | ref n => rfl
    | tuple ts => rfl
    | list ts => rfl
  · intro hnone
    have hall : ∀ e ∈ actions, goodEntry e = true := by
      intro e he
      have := List.find?_eq_none.mp hnone e he
      simpa using this
    obtain ⟨b2, hb2⟩ := foldBatch_all_good actions [] hall
    refine ⟨b2, ?_⟩
    show (match foldBatch actions [] with
          | (Term.atom "ok", batch) => _
          | (bd, _) => _) = _
    rw [hb2]
    rfl

/-- Instance of the restricted report-protocol result: a malformed
`{put, Key}` entry (an atom-free batch) is reported. -/
theorem malformed_batch_entry_reported_w :
    (∀ e ∈ [Term.tuple [Term.atom "put", Term.binary [1]]],
       isAtom e = true → e = ATOM_CLEAR) ∧
    async_write (Term.ref 9) (some { m_Db := some { entries := [], props := [] } })
        (Term.list [Term.tuple [Term.atom "put", Term.binary [1]]])
        (Term.list []) true =
      { ret := ATOM_OK,
        sent := [(Term.ref 9,
                  Term.tuple [ATOM_ERROR, Term.ref 9,
                              Term.tuple [ATOM_BAD_WRITE_ACTION,
                                Term.tuple [Term.atom "put",
                                            Term.binary [1]]]])] } :=
  ⟨by intro e he ha; simp at he; subst he; simp [isAtom] at ha,
   (malformed_batch_entry_reported (Term.ref 9)
      [Term.tuple [Term.atom "put", Term.binary [1]]] []
      { entries := [], props := [] }
      (by intro e he ha; simp at he; subst he; simp [isAtom] at ha)).1
     (Term.tuple [Term.atom "put", Term.binary [1]]) rfl⟩

/-- C6 (code bug): evaluating the write path at the failing input — a
batch holding the bare atom `ok` — under the claim-favorable resolution
of the source's uninitialized read.  The entry is malformed (neither
`clear` nor a put/delete tuple), yet no `bad_write_action` report is
produced and the batch is submitted: `write_batch_item` signals the
offending entry by returning it (`eleveldb.cc:320`) and `async_write`
compares that signal against the `ok` atom itself (`eleveldb.cc:409`),
so the malformed entry `ok` collides with the success sentinel and is
silently accepted.  On any bare atom other than `clear` the source's
behavior is undefined outright (`eleveldb.cc:289-300`), so the claimed
report is not guaranteed there either. -/
theorem atom_ok_entry_swallowed :
    goodEntry (Term.atom "ok") = false ∧
    foldBatch [Term.atom "ok"] [] = (ATOM_OK, []) ∧
    async_write (Term.ref 1)
        (some { m_Db := some { entries := [], props := [] } })
        (Term.list [Term.atom "ok"]) (Term.list []) true =
      { ret := ATOM_OK,
        submitted := [WorkItem.writeTask (Term.ref 1) []] } :=
  ⟨rfl, rfl, rfl⟩

/-- No move action changes the entry set the iterator ranges over. -/
theorem applyMove_entries (it : EngineIter) (a : MoveAction)
    (tgt : List Nat) : (applyMove it a tgt).entries = it.entries := by
  cases a with
  | first => rfl
  | last => simp only [applyMove]
  | next => simp only [applyMove]; split <;> rfl
  | prev =>
      simp only [applyMove]
      split
      · split <;> rfl
      · rfl
  | prefetch => simp only [applyMove]; split <;> rfl
  | seek => rfl

/-- An invalid iterator position carries no key/value. -/
theorem engineKV_of_invalid (it : EngineIter) (hinv : validE it = false) :
    engineKV it = none := by
  unfold validE at hinv
  unfold engineKV
  cases hp : it.pos with
  | none => rfl
  | some i =>
      rw [hp] at hinv
      simp only [decide_eq_false_iff_not, Nat.not_lt] at hinv
      exact List.get?_eq_none.mpr hinv

/-- C7: executing a position-relative move (Next or Prev) against an
invalid iterator reports the invalid-iterator marker and leaves the
iterator state unchanged (no crash, no retry); the handle stays usable —
no move changes the entry set, and after the failed move a First or Last
move lands on a valid position whenever the snapshot is non-empty.  The
synchronous prefetch path of `async_iterator_move` likewise answers the
marker for an invalid buffered position. -/
theorem invalid_iterator_move_reports_marker (it : EngineIter) (ko : Bool)
    (tgt : List Nat) (hinv : validE it = false) :
    (moveTaskExec it ko MoveAction.next tgt).2 =
      Term.tuple [ATOM_ERROR, ATOM_INVALID_ITERATOR] ∧
    (moveTaskExec it ko MoveAction.prev tgt).2 =
      Term.tuple [ATOM_ERROR, ATOM_INVALID_ITERATOR] ∧
    (moveTaskExec it ko MoveAction.next tgt).1 = it ∧
    (moveTaskExec it ko MoveAction.prev tgt).1 = it ∧
    (∀ a tgt2, (applyMove it a tgt2).entries = it.entries) ∧
    (it.entries ≠ [] →
      validE (applyMove it MoveAction.first tgt) = true ∧
      validE (applyMove it MoveAction.last tgt) = true) ∧
    (∀ itr : ItrObject, itr.m_Iter.m_HandoffAtomic = 1 →
      itr.m_Iter.valid = false →
      (async_iterator_move itr ATOM_PREFETCH true).ret =
        Term.tuple [ATOM_ERROR, ATOM_INVALID_ITERATOR]) := by
  have hnext : applyMove it MoveAction.next tgt = it := by
    simp [applyMove, hinv]
  have hprev : applyMove it MoveAction.prev tgt = it := by
    simp [applyMove, hinv]
  have hkv : engineKV it = none := engineKV_of_invalid it hinv
  refine ⟨?_, ?_, ?_, ?_, ?_, ?_, ?_⟩
  · simp [moveTaskExec, hnext, hkv]
  · simp [moveTaskExec, hprev, hkv]
  · simp [moveTaskExec, hnext, hkv]
  · simp [moveTaskExec, hprev, hkv]
  · intro a tgt2
    exact applyMove_entries it a tgt2
  · intro hne
    constructor
    · simp [applyMove, validE, List.length_pos, hne]
    · simp only [applyMove, validE]
      rw [if_neg (by simpa [List.length_eq_zero] using hne)]
      have : 0 < it.entries.length := List.length_pos.mpr hne
      simp only [decide_eq_true_eq]
      omega
  · intro itr hH hv
    obtain ⟨⟨h0, ps, ko2, v2, k, val⟩, r, rm⟩ := itr
    simp only at hH hv
    subst hH
    subst hv
    rfl

/-- Witness for C7 at a past-the-end iterator over one entry. -/
theorem invalid_iterator_move_reports_marker_w :
    validE { entries := [([1], [2])], pos := some 1 } = false ∧
    (moveTaskExec { entries := [([1], [2])], pos := some 1 } false
        MoveAction.next []).2 =
      Term.tuple [ATOM_ERROR, ATOM_INVALID_ITERATOR] :=
  ⟨rfl,
   (invalid_iterator_move_reports_marker
      { entries := [([1], [2])], pos := some 1 } false [] rfl).1⟩

/-- C8: a second close of an already-closing handle is a no-op: the
token no longer resolves, so the call answers badarg and performs no
further state change, for the database close and the iterator close
alike. -/
theorem close_second_call_no_effect (o : RefObject) (s : RefObject × Bool) :
    (eleveldb_close (eleveldb_close o).2).1 = ATOM_BADARG ∧
    (eleveldb_close (eleveldb_close o).2).2 = (eleveldb_close o).2 ∧
    (eleveldb_iterator_close (eleveldb_iterator_close s).2).1 = ATOM_BADARG ∧
    (eleveldb_iterator_close (eleveldb_iterator_close s).2).2 =
      (eleveldb_iterator_close s).2 := by
  obtain ⟨rc, cl⟩ := o
  obtain ⟨⟨rc2, cl2⟩, rm⟩ := s
  cases cl <;> cases cl2 <;> exact ⟨rfl, rfl, rfl, rfl⟩

/-- A `block_size` option tuple leaves the parsed options unchanged. -/
theorem parse_open_option_block_size_noop (t : Term) (opts : Options)
    (h : isBlockSizeOpt t = true) :
    parse_open_option t opts = opts := by
  unfold isBlockSizeOpt at h
  split at h
  · rfl
  · exact absurd h (by simp)

/-- C9: over any option list, the parsed options (in particular the
final `block_size` field) are unchanged by removing every `block_size`
entry; a single `{block_size, N}` option has no effect at all, while
`{sst_block_size, N}` writes N into the underlying `block_size`
field. -/
theorem block_size_ignored_sst_block_size_sets
    (l : List Term) (opts : Options) (n : Nat) (v : Term) :
    foldOpenOptions (l.filter (fun t => !isBlockSizeOpt t)) opts =
      foldOpenOptions l opts ∧
    parse_open_option (Term.tuple [Term.atom "block_size", v]) opts = opts ∧
    (parse_open_option
        (Term.tuple [Term.atom "sst_block_size", Term.int (Int.ofNat n)])
        opts).block_size = n := by
  refine ⟨?_, ?_, ?_⟩
  · induction l generalizing opts with
    | nil => rfl
    | cons t rest ih =>
        cases hb : isBlockSizeOpt t with
        | true =>
            rw [List.filter_cons_of_neg (by simp [hb])]
            show foldOpenOptions (rest.filter _) opts =
                 foldOpenOptions rest (parse_open_option t opts)
            rw [parse_open_option_block_size_noop t opts hb]
            exact ih opts
        | false =>
            rw [List.filter_cons_of_pos (by simp [hb])]
            show foldOpenOptions (rest.filter _) (parse_open_option t opts) =
                 foldOpenOptions rest (parse_open_option t opts)
            exact ih (parse_open_option t opts)
  · exact parse_open_option_block_size_noop _ opts rfl
  · rfl

/-- C10: `is_empty` on a resolvable handle with a live connection makes
one temporary iterator, seeks to the first entry, answers `true` exactly
when that position is invalid — that is, when the database holds no
entries — and deletes the iterator; an unresolvable handle answers
badarg. -/
theorem is_empty_true_iff_no_entries (conn : DbConn) :
    (eleveldb_is_empty (some { m_Db := some conn })).ret =
      (if conn.entries = [] then ATOM_TRUE else ATOM_FALSE) ∧
    ((eleveldb_is_empty (some { m_Db := some conn })).ret = ATOM_TRUE ↔
      conn.entries = []) ∧
    (eleveldb_is_empty (some { m_Db := some conn })).itersCreated = 1 ∧
    (eleveldb_is_empty (some { m_Db := some conn })).itersDeleted = 1 ∧
    (eleveldb_is_empty (some { m_Db := some conn })).engineCalled = true ∧
    eleveldb_is_empty none = { ret := ATOM_BADARG } := by
  obtain ⟨ents, props⟩ := conn
  cases ents with
  | nil => exact ⟨rfl, ⟨fun _ => rfl, fun _ => rfl⟩, rfl, rfl, rfl, rfl⟩
  | cons a rest =>
      refine ⟨?_, ?_, rfl, rfl, rfl, rfl⟩
      · simp [eleveldb_is_empty, applyMove, validE]
      · constructor
        · intro h
          have h2 : ATOM_FALSE = ATOM_TRUE := by
            calc ATOM_FALSE
                = (eleveldb_is_empty
                    (some { m_Db := some { entries := a :: rest,
                                           props := props } })).ret := by
                  simp [eleveldb_is_empty, applyMove, validE]
              _ = ATOM_TRUE := h
          exact absurd h2 (by simp [ATOM_FALSE, ATOM_TRUE])
        · intro h
          cases h

end Eleveldb
